import Mathlib

/-!
Verification of the micromagnetic core-shell SANS model kernel
(`sasmodels/models/micromagnetic_FF_3D.c`).

The C kernel is shallowly embedded over the real numbers: every `double`
becomes an `ℝ`, the external collaborators (core-shell form factor,
scattering-vector rotation, polarization-weight derivation, magnetic SLD
combiner, Gauss-Legendre table) become fields of an `Externals` structure,
and the one guarded branch in `Iqxy` that can fall off the end of the
function without a `return` is modelled with `Option ℝ` (`none` = no value
returned).
-/

namespace MicromagneticFF3D

noncomputable section

/-- Modelled from the spec: the `square` helper macro, `square x = x·x`
(used by the kernel but defined outside this file's source). -/
def square (x : ℝ) : ℝ := x * x

/-- Modelled from the spec: the `cube` helper macro, `cube x = x·x·x`. -/
def cube (x : ℝ) : ℝ := x * x * x

/-- Modelled from the spec: `MAG_VEC` is the scattering-vector magnitude
`|(x,y,z)| = sqrt(x² + y² + z²)` (ScatteringVector magnitude, §3). -/
def MAG_VEC (x y z : ℝ) : ℝ := Real.sqrt (x * x + y * y + z * z)

/-- `form_volume` from the source: `M_4PI_3 * cube(radius + thickness)`. -/
def form_volume (radius thickness : ℝ) : ℝ :=
  4 * Real.pi / 3 * cube (radius + thickness)

/-- `radius_effective` from the source.  The C `switch` places the
unlabeled `default:` immediately before `case 1:`, so every mode other
than `2` falls through to `return radius + thickness`; `case 2` returns
`radius`. -/
def radius_effective (mode : ℤ) (radius thickness : ℝ) : ℝ :=
  if mode = 2 then radius else radius + thickness

/-- `reduced_field` from the source: the micromagnetic susceptibility,
with the internal field floored at `1e-6`. -/
def reduced_field (q Ms Hi A : ℝ) : ℝ :=
  if Hi > 1e-6 then
    Ms / (Hi + 2 * A * 4 * Real.pi / Ms * q * q * 10)
  else
    Ms / (1e-6 + 2 * A * 4 * Real.pi / Ms * q * q * 10)

/-- `DMI_length` from the source: the DMI-induced chiral length for one
signed projection `qval` of the scattering vector. -/
def DMI_length (Ms D qval : ℝ) : ℝ :=
  2 * D * 4 * Real.pi / Ms / Ms * qval

/-- `fqMxreal` from the source: real part of the transverse magnetization
Fourier amplitude along x. -/
def fqMxreal (x y z Mz Hkx Hky Hi Ms A D : ℝ) : ℝ :=
  let q := MAG_VEC x y z
  reduced_field q Ms Hi A * (Hkx * (1 + reduced_field q Ms Hi A * y * y / q / q)
      - Ms * Mz * x * z / q / q *
        (1 + reduced_field q Ms Hi A * DMI_length Ms D q * DMI_length Ms D q)
      - Hky * reduced_field q Ms Hi A * x * y / q / q)
    / (1 + reduced_field q Ms Hi A * (x * x + y * y) / q / q
      - square (reduced_field q Ms Hi A * DMI_length Ms D z))

/-- `fqMximag` from the source: imaginary part of the transverse
magnetization Fourier amplitude along x. -/
def fqMximag (x y z Mz Hkx Hky Hi Ms A D : ℝ) : ℝ :=
  let q := MAG_VEC x y z;
  -reduced_field q Ms Hi A * (Ms * Mz * (1 + reduced_field q Ms Hi A) * DMI_length Ms D y
      + Hky * reduced_field q Ms Hi A * DMI_length Ms D z)
    / (1 + reduced_field q Ms Hi A * (x * x + y * y) / q / q
      - square (reduced_field q Ms Hi A * DMI_length Ms D z))

/-- `fqMyreal` from the source: real part of the transverse magnetization
Fourier amplitude along y. -/
def fqMyreal (x y z Mz Hkx Hky Hi Ms A D : ℝ) : ℝ :=
  let q := MAG_VEC x y z
  reduced_field q Ms Hi A * (Hky * (1 + reduced_field q Ms Hi A * x * x / q / q)
      - Ms * Mz * y * z / q / q *
        (1 + reduced_field q Ms Hi A * DMI_length Ms D q * DMI_length Ms D q)
      - Hkx * reduced_field q Ms Hi A * x * y / q / q)
    / (1 + reduced_field q Ms Hi A * (x * x + y * y) / q / q
      - square (reduced_field q Ms Hi A * DMI_length Ms D z))

/-- `fqMyimag` from the source: imaginary part of the transverse
magnetization Fourier amplitude along y. -/
def fqMyimag (x y z Mz Hkx Hky Hi Ms A D : ℝ) : ℝ :=
  let q := MAG_VEC x y z
  reduced_field q Ms Hi A * (Ms * Mz * (1 + reduced_field q Ms Hi A) * DMI_length Ms D x
      - Hkx * reduced_field q Ms Hi A * DMI_length Ms D z)
    / (1 + reduced_field q Ms Hi A * (x * x + y * y) / q / q
      - square (reduced_field q Ms Hi A * DMI_length Ms D z))

/-- The denominator shared by all four `fqM*` functions, exactly as it
appears in each of their source expressions. -/
def denomM (x y z Hi Ms A D : ℝ) : ℝ :=
  let q := MAG_VEC x y z
  1 + reduced_field q Ms Hi A * (x * x + y * y) / q / q
    - square (reduced_field q Ms Hi A * DMI_length Ms D z)

/-- The numerator of `fqMxreal`, exactly as in the source expression. -/
def numMxreal (x y z Mz Hkx Hky Hi Ms A D : ℝ) : ℝ :=
  let q := MAG_VEC x y z
  reduced_field q Ms Hi A * (Hkx * (1 + reduced_field q Ms Hi A * y * y / q / q)
      - Ms * Mz * x * z / q / q *
        (1 + reduced_field q Ms Hi A * DMI_length Ms D q * DMI_length Ms D q)
      - Hky * reduced_field q Ms Hi A * x * y / q / q)

/-- The numerator of `fqMximag`, exactly as in the source expression. -/
def numMximag (x y z Mz Hkx Hky Hi Ms A D : ℝ) : ℝ :=
  -reduced_field (MAG_VEC x y z) Ms Hi A *
    (Ms * Mz * (1 + reduced_field (MAG_VEC x y z) Ms Hi A) * DMI_length Ms D y
      + Hky * reduced_field (MAG_VEC x y z) Ms Hi A * DMI_length Ms D z)

/-- The numerator of `fqMyreal`, exactly as in the source expression. -/
def numMyreal (x y z Mz Hkx Hky Hi Ms A D : ℝ) : ℝ :=
  let q := MAG_VEC x y z
  reduced_field q Ms Hi A * (Hky * (1 + reduced_field q Ms Hi A * x * x / q / q)
      - Ms * Mz * y * z / q / q *
        (1 + reduced_field q Ms Hi A * DMI_length Ms D q * DMI_length Ms D q)
      - Hkx * reduced_field q Ms Hi A * x * y / q / q)

/-- The numerator of `fqMyimag`, exactly as in the source expression. -/
def numMyimag (x y z Mz Hkx Hky Hi Ms A D : ℝ) : ℝ :=
  reduced_field (MAG_VEC x y z) Ms Hi A *
    (Ms * Mz * (1 + reduced_field (MAG_VEC x y z) Ms Hi A) * DMI_length Ms D x
      - Hkx * reduced_field (MAG_VEC x y z) Ms Hi A * DMI_length Ms D z)

/-- Modelled from the spec (§6): the external collaborators of the kernel
that live outside this source file — the core-shell sphere form factor,
the sample-frame rotation, the polarization-weight derivation, the
magnetic SLD combiner, and the shared Gauss-Legendre node/weight table. -/
structure Externals where
  core_shell_fq : ℝ → ℝ → ℝ → ℝ → ℝ → ℝ → ℝ
  set_scatvec : ℝ → ℝ → ℝ → ℝ → ℝ → Fin 3 → ℝ
  set_weights : ℝ → ℝ → Fin 8 → ℝ
  mag_sld : ℝ → ℝ → ℝ → ℝ → ℝ → ℝ → ℝ → ℝ → ℝ → ℝ → Fin 8 → ℝ
  gaussN : ℕ
  gaussZ : ℕ → ℝ
  gaussW : ℕ → ℝ

/-- `fq` from the source: thin wrapper around the external core-shell
form factor. -/
def fq (ext : Externals) (q radius thickness core_sld shell_sld solvent_sld : ℝ) : ℝ :=
  ext.core_shell_fq q radius thickness core_sld shell_sld solvent_sld

/-- The per-node polarization-channel accumulation loop shared verbatim by
`Iqxy` (lines 122–130) and `Iq` (lines 179–187): iterate over the 8
channels, and whenever `weights[xs] > 1.0e-8` add
`weights[xs]*sld[xs]*sld[xs]` to the running form value. -/
def formSum (weights sld : Fin 8 → ℝ) : ℝ :=
  (List.finRange 8).foldl
    (fun form xs => if weights xs > 1e-8 then form + weights xs * sld xs * sld xs else form) 0

/-- The per-quadrature-node body shared by `Iqxy` and `Iq`: given the
rotated vector, weights, `mz`, `nuc` and the node index, compute the local
anisotropy field at angle `γ = π(z_i + 1)`, the four magnetization
components, the 8 combined SLDs, and the weighted channel sum. -/
def gammaNode (ext : Externals) (q radius thickness core_hk Hi Ms A D : ℝ)
    (qrot : Fin 3 → ℝ) (weights : Fin 8 → ℝ) (mz nuc : ℝ) (i : ℕ) : ℝ :=
  let gamma := Real.pi * (ext.gaussZ i + 1)
  let sin_gamma := Real.sin gamma
  let cos_gamma := Real.cos gamma
  let Hkx := fq ext q radius thickness core_hk 0 0 * sin_gamma
  let Hky := fq ext q radius thickness core_hk 0 0 * cos_gamma
  let mxreal := fqMxreal (qrot 0) (qrot 1) (qrot 2) mz Hkx Hky Hi Ms A D
  let mximag := fqMximag (qrot 0) (qrot 1) (qrot 2) mz Hkx Hky Hi Ms A D
  let myreal := fqMyreal (qrot 0) (qrot 1) (qrot 2) mz Hkx Hky Hi Ms A D
  let myimag := fqMyimag (qrot 0) (qrot 1) (qrot 2) mz Hkx Hky Hi Ms A D
  let sld := ext.mag_sld (qrot 0) (qrot 1) (qrot 2) mxreal mximag myreal myimag mz 0 nuc
  formSum weights sld

/-- `Iqxy` from the source.  The whole body sits inside
`if (q > 1.0e-16) { ... return 0.5*1.0e-4*total_F2; }`; there is no
`else` branch and no statement after the `if`, so for `q ≤ 1e-16` the C
function reaches its closing brace without returning a value.  That
missing return value is modelled as `none`. -/
def Iqxy (ext : Externals)
    (qx qy radius thickness core_nuc shell_nuc solvent_nuc
     core_Ms shell_Ms solvent_Ms core_hk Hi Ms A D up_i up_f alpha beta : ℝ) :
    Option ℝ :=
  let q := MAG_VEC qx qy 0
  if q > 1e-16 then
    let cos_theta := qx / q
    let sin_theta := qy / q
    let qrot := ext.set_scatvec q cos_theta sin_theta alpha beta
    let weights := ext.set_weights up_i up_f
    let mz := fq ext q radius thickness core_Ms shell_Ms solvent_Ms
    let nuc := fq ext q radius thickness core_nuc shell_nuc solvent_nuc
    let total_F2 := ∑ i ∈ Finset.range ext.gaussN,
      ext.gaussW i * gammaNode ext q radius thickness core_hk Hi Ms A D qrot weights mz nuc i
    some (0.5 * 1e-4 * total_F2)
  else
    none

/-- `Iq` from the source: the 1D powder average, an outer quadrature over
the detector azimuth wrapped around the same γ-average as `Iqxy`. -/
def Iq (ext : Externals)
    (q radius thickness core_nuc shell_nuc solvent_nuc
     core_Ms shell_Ms solvent_Ms core_hk Hi Ms A D up_i up_f alpha beta : ℝ) : ℝ :=
  let total_F1D := ∑ j ∈ Finset.range ext.gaussN,
    (let theta := Real.pi * (ext.gaussZ j + 1)
     let sin_theta := Real.sin theta
     let cos_theta := Real.cos theta
     let qrot := ext.set_scatvec q cos_theta sin_theta alpha beta
     let weights := ext.set_weights up_i up_f
     let mz := fq ext q radius thickness core_Ms shell_Ms solvent_Ms
     let nuc := fq ext q radius thickness core_nuc shell_nuc solvent_nuc
     let total_F2 := ∑ i ∈ Finset.range ext.gaussN,
       ext.gaussW i * gammaNode ext q radius thickness core_hk Hi Ms A D qrot weights mz nuc i
     ext.gaussW j * total_F2)
  0.25 * 1e-4 * total_F1D

/-! ### Helper evaluation lemmas for the concrete witness inputs -/

lemma MAG_VEC_unit : MAG_VEC 1 0 0 = 1 := by
  norm_num [MAG_VEC]

lemma reduced_field_unit : reduced_field 1 1 1 0 = 1 := by
  norm_num [reduced_field]

lemma denomM_unit : denomM 1 0 0 1 1 0 0 = 2 := by
  norm_num [denomM, MAG_VEC_unit, reduced_field_unit, DMI_length, square]

/-! ### Claim theorems -/

/-- Claim C3: `reduced_field(q, Ms, Hi, A)` equals
`Ms / (max(Hi, 1e-6) + 2·A·4π/Ms·q²·10)` for every `Ms ≠ 0` and `Hi ≥ 0`,
and in particular at `Hi = 0` it equals
`Ms / (1e-6 + 2·A·4π/Ms·q²·10)`. -/
theorem reduced_field_max_floor (q Ms Hi A : ℝ) (hMs : Ms ≠ 0) (hHi : 0 ≤ Hi) :
    reduced_field q Ms Hi A
      = Ms / (max Hi 1e-6 + 2 * A * 4 * Real.pi / Ms * q ^ 2 * 10) ∧
    reduced_field q Ms 0 A
      = Ms / (1e-6 + 2 * A * 4 * Real.pi / Ms * q ^ 2 * 10) := by
  constructor
  · unfold reduced_field
    by_cases h : Hi > 1e-6
    · rw [if_pos h, max_eq_left h.le]
      congr 1
      ring
    · rw [if_neg h, max_eq_right (le_of_not_lt h)]
      congr 1
      ring
  · unfold reduced_field
    rw [if_neg (by norm_num)]
    congr 1
    ring

/-- Witness for C3 at `q = 1`, `Ms = 1`, `Hi = 0`, `A = 0`. -/
theorem reduced_field_max_floor_witness :
    (1 : ℝ) ≠ 0 ∧ (0 : ℝ) ≤ 0 ∧
      reduced_field 1 1 0 0 = 1 / (max 0 1e-6 + 2 * 0 * 4 * Real.pi / 1 * 1 ^ 2 * 10) :=
  ⟨by norm_num, le_refl 0, (reduced_field_max_floor 1 1 0 0 (by norm_num) (le_refl 0)).1⟩

/-- Claim C4: `radius_effective` returns `radius` exactly for `mode = 2`
and `radius + thickness` for every other mode (the C `default:` label
falls through to `case 1:`); in particular
`radius_effective 1 50 10 = 60` and `radius_effective 2 50 10 = 50`. -/
theorem radius_effective_mode_choice :
    (∀ r t : ℝ, radius_effective 2 r t = r) ∧
    (∀ (mode : ℤ) (r t : ℝ), mode ≠ 2 → radius_effective mode r t = r + t) ∧
    radius_effective 1 50 10 = 60 ∧ radius_effective 2 50 10 = 50 := by
  refine ⟨fun r t => ?_, fun mode r t h => ?_, ?_, ?_⟩
  · simp [radius_effective]
  · simp [radius_effective, h]
  · norm_num [radius_effective]
  · norm_num [radius_effective]

/-- Witness for C4: the non-core branch at `mode = 1`. -/
theorem radius_effective_mode_choice_witness :
    (1 : ℤ) ≠ 2 ∧ radius_effective 1 50 10 = 50 + 10 :=
  ⟨by decide, radius_effective_mode_choice.2.1 1 50 10 (by decide)⟩

/-- Claim C7: `DMI_length(Ms, D, p) = 2·D·4π/Ms²·p` for `Ms ≠ 0`; it is
linear (additive and homogeneous) in `D` and in the projection `p`, and
odd in the projection. -/
theorem DMI_length_formula_linear_odd (Ms D p c D1 D2 p1 p2 : ℝ) (hMs : Ms ≠ 0) :
    DMI_length Ms D p = 2 * D * 4 * Real.pi / Ms ^ 2 * p ∧
    DMI_length Ms (c * D) p = c * DMI_length Ms D p ∧
    DMI_length Ms (D1 + D2) p = DMI_length Ms D1 p + DMI_length Ms D2 p ∧
    DMI_length Ms D (c * p) = c * DMI_length Ms D p ∧
    DMI_length Ms D (p1 + p2) = DMI_length Ms D p1 + DMI_length Ms D p2 ∧
    DMI_length Ms D (-p) = -DMI_length Ms D p := by
  unfold DMI_length
  exact ⟨by ring, by ring, by ring, by ring, by ring, by ring⟩

/-- Witness for C7 at `Ms = 1`, `D = 1`, `p = 1`. -/
theorem DMI_length_formula_linear_odd_witness :
    (1 : ℝ) ≠ 0 ∧ DMI_length 1 1 1 = 2 * 1 * 4 * Real.pi / 1 ^ 2 * 1 :=
  ⟨by norm_num, (DMI_length_formula_linear_odd 1 1 1 1 1 1 1 1 (by norm_num)).1⟩

/-- Claim C2: with `D = 0` both imaginary magnetization components vanish
identically, for every point with non-zero magnitude and non-zero shared
denominator and every `Mz`, `Hkx`, `Hky`, `Hi`, `Ms ≠ 0`, `A`. -/
theorem fqM_imag_zero_when_D_zero (x y z Mz Hkx Hky Hi Ms A : ℝ)
    (hq : MAG_VEC x y z ≠ 0) (hden : denomM x y z Hi Ms A 0 ≠ 0) (hMs : Ms ≠ 0) :
    fqMximag x y z Mz Hkx Hky Hi Ms A 0 = 0 ∧
    fqMyimag x y z Mz Hkx Hky Hi Ms A 0 = 0 := by
  constructor
  · simp [fqMximag, DMI_length]
  · simp [fqMyimag, DMI_length]

/-- Witness for C2 at `(x,y,z) = (1,0,0)`, `Mz = Hkx = Hky = Hi = Ms = 1`,
`A = 0`. -/
theorem fqM_imag_zero_when_D_zero_witness :
    MAG_VEC 1 0 0 ≠ 0 ∧ denomM 1 0 0 1 1 0 0 ≠ 0 ∧ (1 : ℝ) ≠ 0 ∧
      fqMximag 1 0 0 1 1 1 1 1 0 0 = 0 :=
  ⟨by rw [MAG_VEC_unit]; norm_num, by rw [denomM_unit]; norm_num, by norm_num,
   (fqM_imag_zero_when_D_zero 1 0 0 1 1 1 1 1 0
      (by rw [MAG_VEC_unit]; norm_num) (by rw [denomM_unit]; norm_num) (by norm_num)).1⟩

/-- Claim C10: `fqMximag` does not depend on `Hkx` and `fqMyimag` does not
depend on `Hky` (each only reads the other transverse anisotropy-field
component). -/
theorem fqM_imag_independent_of_own_axis
    (x y z Mz Hkx1 Hkx2 Hky1 Hky2 Hkx Hky Hi Ms A D : ℝ)
    (hq : MAG_VEC x y z ≠ 0) (hden : denomM x y z Hi Ms A D ≠ 0) (hMs : Ms ≠ 0) :
    fqMximag x y z Mz Hkx1 Hky Hi Ms A D = fqMximag x y z Mz Hkx2 Hky Hi Ms A D ∧
    fqMyimag x y z Mz Hkx Hky1 Hi Ms A D = fqMyimag x y z Mz Hkx Hky2 Hi Ms A D :=
  ⟨rfl, rfl⟩

/-- Witness for C10 with `Hkx = 1` versus `Hkx = 2` at the unit input. -/
theorem fqM_imag_independent_of_own_axis_witness :
    MAG_VEC 1 0 0 ≠ 0 ∧ denomM 1 0 0 1 1 0 0 ≠ 0 ∧ (1 : ℝ) ≠ 0 ∧
      fqMximag 1 0 0 1 1 1 1 1 0 0 = fqMximag 1 0 0 1 2 1 1 1 0 0 :=
  ⟨by rw [MAG_VEC_unit]; norm_num, by rw [denomM_unit]; norm_num, by norm_num,
   (fqM_imag_independent_of_own_axis 1 0 0 1 1 2 1 2 1 1 1 1 0 0
      (by rw [MAG_VEC_unit]; norm_num) (by rw [denomM_unit]; norm_num) (by norm_num)).1⟩

/-- Claim C5: with `D = 0` and `Hkx = Hky = 0` the real components reduce
to the pure longitudinal-transverse coupling term
`−Ms·Mz·x·z/q² · χ / (1 + χ·(x²+y²)/q²)` (and the y-analogue), where
`χ = reduced_field(q, Ms, Hi, A)` and `q = |(x,y,z)|`. -/
theorem fqM_real_reduce_when_D_zero (x y z Mz Hi Ms A : ℝ)
    (hq : MAG_VEC x y z ≠ 0) (hMs : Ms ≠ 0) :
    fqMxreal x y z Mz 0 0 Hi Ms A 0
      = -Ms * Mz * x * z / MAG_VEC x y z ^ 2 * reduced_field (MAG_VEC x y z) Ms Hi A
        / (1 + reduced_field (MAG_VEC x y z) Ms Hi A * (x ^ 2 + y ^ 2) / MAG_VEC x y z ^ 2) ∧
    fqMyreal x y z Mz 0 0 Hi Ms A 0
      = -Ms * Mz * y * z / MAG_VEC x y z ^ 2 * reduced_field (MAG_VEC x y z) Ms Hi A
        / (1 + reduced_field (MAG_VEC x y z) Ms Hi A * (x ^ 2 + y ^ 2) / MAG_VEC x y z ^ 2) := by
  constructor
  · simp only [fqMxreal, DMI_length, square]
    congr 1
    · ring
    · ring
  · simp only [fqMyreal, DMI_length, square]
    congr 1
    · ring
    · ring

/-- Witness for C5 at `(x,y,z) = (1,0,0)`, `Mz = Hi = Ms = 1`, `A = 0`. -/
theorem fqM_real_reduce_when_D_zero_witness :
    MAG_VEC 1 0 0 ≠ 0 ∧ (1 : ℝ) ≠ 0 ∧
      fqMxreal 1 0 0 1 0 0 1 1 0 0
        = -1 * 1 * 1 * 0 / MAG_VEC 1 0 0 ^ 2 * reduced_field (MAG_VEC 1 0 0) 1 1 0
          / (1 + reduced_field (MAG_VEC 1 0 0) 1 1 0 * (1 ^ 2 + 0 ^ 2) / MAG_VEC 1 0 0 ^ 2) :=
  ⟨by rw [MAG_VEC_unit]; norm_num, by norm_num,
   (fqM_real_reduce_when_D_zero 1 0 0 1 1 1 0
      (by rw [MAG_VEC_unit]; norm_num) (by norm_num)).1⟩

/-- Claim C6: all four magnetization functions divide by one and the same
denominator `denomM(x,y,z,Hi,Ms,A,D)`, which takes no `Mz`, `Hkx` or
`Hky` argument; multiplying each function by that shared denominator
recovers exactly that function's source numerator, for all `Mz`, `Hkx`,
`Hky`. -/
theorem fqM_shared_denominator (x y z Mz Hkx Hky Hi Ms A D : ℝ)
    (hq : MAG_VEC x y z ≠ 0) (hden : denomM x y z Hi Ms A D ≠ 0) :
    denomM x y z Hi Ms A D * fqMxreal x y z Mz Hkx Hky Hi Ms A D
      = numMxreal x y z Mz Hkx Hky Hi Ms A D ∧
    denomM x y z Hi Ms A D * fqMximag x y z Mz Hkx Hky Hi Ms A D
      = numMximag x y z Mz Hkx Hky Hi Ms A D ∧
    denomM x y z Hi Ms A D * fqMyreal x y z Mz Hkx Hky Hi Ms A D
      = numMyreal x y z Mz Hkx Hky Hi Ms A D ∧
    denomM x y z Hi Ms A D * fqMyimag x y z Mz Hkx Hky Hi Ms A D
      = numMyimag x y z Mz Hkx Hky Hi Ms A D := by
  simp only [denomM] at hden
  refine ⟨?_, ?_, ?_, ?_⟩
  · simp only [denomM, fqMxreal, numMxreal]
    rw [mul_comm]
    exact div_mul_cancel₀ _ hden
  · simp only [denomM, fqMximag, numMximag]
    rw [mul_comm]
    exact div_mul_cancel₀ _ hden
  · simp only [denomM, fqMyreal, numMyreal]
    rw [mul_comm]
    exact div_mul_cancel₀ _ hden
  · simp only [denomM, fqMyimag, numMyimag]
    rw [mul_comm]
    exact div_mul_cancel₀ _ hden

/-- Witness for C6 at the unit input, where the shared denominator is 2. -/
theorem fqM_shared_denominator_witness :
    MAG_VEC 1 0 0 ≠ 0 ∧ denomM 1 0 0 1 1 0 0 ≠ 0 ∧
      denomM 1 0 0 1 1 0 0 * fqMxreal 1 0 0 1 1 1 1 1 0 0
        = numMxreal 1 0 0 1 1 1 1 1 0 0 :=
  ⟨by rw [MAG_VEC_unit]; norm_num, by rw [denomM_unit]; norm_num,
   (fqM_shared_denominator 1 0 0 1 1 1 1 1 0 0
      (by rw [MAG_VEC_unit]; norm_num) (by rw [denomM_unit]; norm_num)).1⟩

/-- Claim C8 counterexample: monotonicity in `Hi` fails as stated.  At
`q = 1`, `Ms = -1 ≠ 0`, `A = 0`, `Hi1 = 0 ≤ Hi2 = 1`, the code gives
`reduced_field = -1/1e-6 = -1e6` at `Hi1` and `-1` at `Hi2`, and
`-1 ≤ -1e6` is false. -/
theorem reduced_field_not_antitone_for_negative_Ms :
    (-1 : ℝ) ≠ 0 ∧ (0 : ℝ) ≤ 0 ∧ (0 : ℝ) ≤ 1 ∧
      ¬ reduced_field 1 (-1) 1 0 ≤ reduced_field 1 (-1) 0 0 := by
  refine ⟨by norm_num, le_refl 0, by norm_num, ?_⟩
  norm_num [reduced_field]

/-- Claim C8 amended: for `Ms > 0` and `A ≥ 0` (so that the susceptibility
denominator is positive and grows with `Hi`), `reduced_field` is
monotonically non-increasing in `Hi` on `Hi ≥ 0` at fixed `q`, `Ms`, `A`. -/
theorem reduced_field_antitone_in_Hi (q Ms Hi1 Hi2 A : ℝ)
    (hMs : 0 < Ms) (hA : 0 ≤ A) (h0 : 0 ≤ Hi1) (h12 : Hi1 ≤ Hi2) :
    reduced_field q Ms Hi2 A ≤ reduced_field q Ms Hi1 A := by
  have hc : 0 ≤ 2 * A * 4 * Real.pi / Ms * q * q * 10 := by
    have he : 2 * A * 4 * Real.pi / Ms * q * q * 10 = A / Ms * (2 * 4 * 10) * Real.pi * (q * q) := by
      ring
    rw [he]
    exact mul_nonneg (mul_nonneg (mul_nonneg (div_nonneg hA hMs.le) (by norm_num))
      Real.pi_pos.le) (mul_self_nonneg q)
  unfold reduced_field
  split_ifs with h2 h1 h1
  · exact div_le_div_of_nonneg_left hMs.le (by linarith) (by linarith)
  · exact div_le_div_of_nonneg_left hMs.le (by linarith) (by linarith)
  · exact absurd (lt_of_lt_of_le h1 h12) h2
  · exact le_refl _

/-- Witness for the amended C8 at `q = 1`, `Ms = 1`, `A = 0`,
`Hi1 = 0 ≤ Hi2 = 1`. -/
theorem reduced_field_antitone_in_Hi_witness :
    (0 : ℝ) < 1 ∧ (0 : ℝ) ≤ 0 ∧ (0 : ℝ) ≤ 1 ∧
      reduced_field 1 1 1 0 ≤ reduced_field 1 1 0 0 :=
  ⟨by norm_num, le_refl 0, by norm_num,
   reduced_field_antitone_in_Hi 1 1 0 1 0 (by norm_num) (le_refl 0) (le_refl 0) (by norm_num)⟩

lemma foldl_if_add {α : Type} (p : α → Prop) [DecidablePred p] (g : α → ℝ)
    (l : List α) (a : ℝ) :
    l.foldl (fun acc i => if p i then acc + g i else acc) a
      = a + (l.map fun i => if p i then g i else 0).sum := by
  induction l generalizing a with
  | nil => simp
  | cons x xs ih =>
      simp only [List.foldl_cons, List.map_cons, List.sum_cons]
      rw [ih]
      split_ifs <;> ring

/-- Claim C9 counterexample: a channel whose weight is exactly `1e-8`
(hence not below `1e-8`) contributes nothing — the code's test is
`weights[xs] > 1.0e-8`, a strict comparison, so the form sum is `0`
although the claim predicts each channel contributes
`weight·sld² = 1e-8`, a non-zero total. -/
theorem formSum_skips_boundary_weight :
    formSum (fun _ => 1e-8) (fun _ => 1) = 0 ∧
    ¬ ((1e-8 : ℝ) < 1e-8) ∧ (8 : ℝ) * (1e-8 * 1 * 1) ≠ 0 := by
  refine ⟨?_, by norm_num, by norm_num⟩
  rw [formSum, foldl_if_add]
  norm_num

/-- Claim C9 amended: in the per-node channel accumulation of both `Iq`
and `Iqxy`, a polarization channel is skipped exactly when its weight is
at most `1e-8` (the code's test `weights[xs] > 1.0e-8` is strict); every
channel whose weight strictly exceeds `1e-8` contributes
`weight·sld²` to the form sum. -/
theorem formSum_skip_rule (w s : Fin 8 → ℝ) :
    formSum w s = ∑ xs : Fin 8, (if 1e-8 < w xs then w xs * s xs * s xs else 0) := by
  rw [formSum, foldl_if_add, Fin.sum_univ_def, zero_add]

/-- Claim C1 (code bug): at `(qx, qy) = (0, 0)` the magnitude is
`0 ≤ 1e-16`, the guard `q > 1e-16` fails, and the C function reaches its
closing brace without executing any `return` — the call yields no defined
value (modelled `none`), not the value `0.0` the spec mandates.  This
holds for arbitrary values of all other parameters. -/
theorem Iqxy_no_return_at_zero_q (ext : Externals)
    (radius thickness core_nuc shell_nuc solvent_nuc
     core_Ms shell_Ms solvent_Ms core_hk Hi Ms A D up_i up_f alpha beta : ℝ) :
    Iqxy ext 0 0 radius thickness core_nuc shell_nuc solvent_nuc
        core_Ms shell_Ms solvent_Ms core_hk Hi Ms A D up_i up_f alpha beta = none ∧
    Iqxy ext 0 0 radius thickness core_nuc shell_nuc solvent_nuc
        core_Ms shell_Ms solvent_Ms core_hk Hi Ms A D up_i up_f alpha beta ≠ some 0 := by
  have h0 : MAG_VEC (0 : ℝ) 0 0 = 0 := by norm_num [MAG_VEC]
  have hn : ¬ MAG_VEC (0 : ℝ) 0 0 > 1e-16 := by rw [h0]; norm_num
  have h1 : Iqxy ext 0 0 radius thickness core_nuc shell_nuc solvent_nuc
      core_Ms shell_Ms solvent_Ms core_hk Hi Ms A D up_i up_f alpha beta = none := by
    simp only [Iqxy]
    rw [if_neg hn]
  exact ⟨h1, by rw [h1]; simp⟩

end

end MicromagneticFF3D
